import Mathlib

/-!
Shallow embedding of `src/snake_game.py` (terminal Snake game).

Coordinates are `Int` pairs (row, column), as Python lists `[y, x]` of ints.
Keys are modelled as the integers `curses.getch` returns: the curses arrow-key
constants, character ordinals, and `-1` on poll timeout.
Randomness (`random.randint` inside `create_food`) is modelled by passing the
stream of sampled cells explicitly; `stdscr` drawing calls have no effect on
game state and are omitted.
-/

/-- A board cell: `[row, col]` in the Python source. -/
structure Cell where
  row : Int
  col : Int
deriving DecidableEq, Repr

/-- The arena rectangle `box = [[1, 1], [max_y, max_x]]` from `game_loop`:
`topLeft` is `box[0]`, `botRight` is `box[1]`. -/
structure Box where
  topLeft : Cell
  botRight : Cell
deriving DecidableEq, Repr

/-- curses constant `curses.KEY_DOWN`. -/
def KEY_DOWN : Int := 258
/-- curses constant `curses.KEY_UP`. -/
def KEY_UP : Int := 259
/-- curses constant `curses.KEY_LEFT`. -/
def KEY_LEFT : Int := 260
/-- curses constant `curses.KEY_RIGHT`. -/
def KEY_RIGHT : Int := 261
/-- `ord('q')`, the quit key tested at line 154. -/
def ORD_q : Int := 113
/-- `ord('Q')` (uppercase), which the source never tests. -/
def ORD_Q : Int := 81
/-- The value `stdscr.getch()` returns when the poll times out with no input. -/
def NO_INPUT : Int := -1

/-- The list `[curses.KEY_UP, curses.KEY_DOWN, curses.KEY_LEFT, curses.KEY_RIGHT]`
membership in which is tested at line 143. -/
def arrowKeys : List Int := [KEY_UP, KEY_DOWN, KEY_LEFT, KEY_RIGHT]

/-- The mutable per-game state of `game_loop`: the snake cell list (head first),
the current direction (stored as a curses key code, as in the source), the food
cell, the score, and the current input timeout in milliseconds. -/
structure GameState where
  snake : List Cell
  direction : Int
  food : Cell
  score : Int
  timeout : Int
deriving DecidableEq, Repr

/-- The elif chain at lines 144-151: accept an arrow key unless it is the
180-degree opposite of the current direction; otherwise keep the direction.
(`game_tick` only reaches this when `key ∈ arrowKeys`, as in the source.) -/
def updateDirection (direction key : Int) : Int :=
  if key = KEY_UP ∧ direction ≠ KEY_DOWN then key
  else if key = KEY_DOWN ∧ direction ≠ KEY_UP then key
  else if key = KEY_LEFT ∧ direction ≠ KEY_RIGHT then key
  else if key = KEY_RIGHT ∧ direction ≠ KEY_LEFT then key
  else direction

/-- Lines 158-166: copy the head and offset it one cell in the current
direction (any value outside the four arrow codes leaves it unchanged,
matching the if/elif chain with no else). -/
def newHead (head : Cell) (direction : Int) : Cell :=
  if direction = KEY_UP then { head with row := head.row - 1 }
  else if direction = KEY_DOWN then { head with row := head.row + 1 }
  else if direction = KEY_LEFT then { head with col := head.col - 1 }
  else if direction = KEY_RIGHT then { head with col := head.col + 1 }
  else head

/-- The wall test at lines 172-175: head row/column at or beyond a border
coordinate of the box. -/
def wallCollision (box : Box) (c : Cell) : Bool :=
  c.row ≤ box.topLeft.row || c.row ≥ box.botRight.row ||
  c.col ≤ box.topLeft.col || c.col ≥ box.botRight.col

/-- Line 189: `max(50, 100 - (score * 2))`, the new input timeout computed
after the score was incremented. -/
def new_timeout (score : Int) : Int := max 50 (100 - score * 2)

/-- Result of one pass through the `while True` body of `game_loop`:
`quit` is the `return score` at line 155, `gameOver` the returns at lines
176 and 180, `cont` means the loop body completed and iterates again. -/
inductive TickResult where
  | quit (score : Int)
  | gameOver (score : Int)
  | cont (st : GameState)
deriving DecidableEq, Repr

/-- Lines 157-195, the part of the tick after input handling: compute the new
head from the current direction, prepend it (`snake.insert(0, new_head)`),
check walls (lines 172-176), check self-collision against `snake[1:]` — the
body with the tail still present, since `snake.pop()` only happens at line
193 — then either eat (new food, score + 1, faster timeout) or pop the tail.
`newFood` is the cell `create_food` would return when food is eaten. -/
def advance_phase (box : Box) (st : GameState) (newFood : Cell) : TickResult :=
  let nh := newHead (st.snake.headD ⟨0, 0⟩) st.direction
  if wallCollision box nh then .gameOver st.score
  else if nh ∈ st.snake then .gameOver st.score
  else if nh = st.food then
    .cont { st with snake := nh :: st.snake, food := newFood,
                    score := st.score + 1, timeout := new_timeout (st.score + 1) }
  else
    .cont { st with snake := (nh :: st.snake).dropLast }

/-- One iteration of the `while True` loop of `game_loop` (lines 135-214),
given the key returned by `stdscr.getch()`: arrow keys update the direction
through the reversal guard, `ord('q')` returns the score immediately, and
every other key (including timeout `-1`) falls through to the move. -/
def game_tick (box : Box) (st : GameState) (key : Int) (newFood : Cell) : TickResult :=
  if key ∈ arrowKeys then
    advance_phase box { st with direction := updateDirection st.direction key } newFood
  else if key = ORD_q then
    .quit st.score
  else
    advance_phase box st newFood

/-- Lines 55-67, `create_food`: repeatedly sample a random cell until it is
not on the snake. The stream of `random.randint` samples is passed explicitly
as `draws`; `none` means the (finite) stream ran out before a free cell was
drawn. -/
def create_food (snake : List Cell) : List Cell → Option Cell
  | [] => none
  | d :: ds => if d ∈ snake then create_food snake ds else some d

/-- The range of the two `random.randint` calls at lines 60-63: row in
`[box[0][0]+1, box[1][0]-1]` and col in `[box[0][1]+1, box[1][1]-1]`,
both bounds inclusive — strictly inside the border. -/
def inInner (box : Box) (c : Cell) : Prop :=
  box.topLeft.row + 1 ≤ c.row ∧ c.row ≤ box.botRight.row - 1 ∧
  box.topLeft.col + 1 ≤ c.col ∧ c.col ≤ box.botRight.col - 1

instance (box : Box) (c : Cell) : Decidable (inInner box c) := by
  unfold inInner; infer_instance

/-- Lines 113-115 of `game_loop`: the box computed from the terminal size. -/
def mkBox (height width : Int) : Box :=
  ⟨⟨1, 1⟩, ⟨height - 2, width - 2⟩⟩

/-- Lines 120-128: fresh game state at the start of `game_loop` — a
one-segment snake in the middle of the screen, moving right, score 0,
the initial 100 ms timeout from line 18, and the first food cell
(`create_food`'s result, passed in as `food0`). -/
def initState (height width : Int) (food0 : Cell) : GameState :=
  { snake := [⟨height / 2, width / 4⟩], direction := KEY_RIGHT,
    food := food0, score := 0, timeout := 100 }

/-- What one pass of `main`'s outer loop does with the terminal size
(lines 30-41): below the minimum it shows the too-small message, sleeps and
retries without starting a game; otherwise it starts `game_loop`. -/
inductive SessionAction where
  | showTooSmallAndRetry
  | startGame
deriving DecidableEq, Repr

/-- The size gate at line 33: `height < 10 or width < 30`. -/
def session_check (height width : Int) : SessionAction :=
  if height < 10 ∨ width < 30 then .showTooSmallAndRetry else .startGame

/-- `main`'s polling loop over successive reported terminal sizes: the size
the first `game_loop` is started with, if any size in the stream ever meets
the minimum. -/
def session_gate : List (Int × Int) → Option (Int × Int)
  | [] => none
  | (h, w) :: rest =>
    if h < 10 ∨ w < 30 then session_gate rest else some (h, w)

/-- Discriminator: is the tick result a continuation? -/
def isCont : TickResult → Bool
  | .cont _ => true
  | _ => false

/-- Discriminator: is the tick result the quit return? -/
def isQuit : TickResult → Bool
  | .quit _ => true
  | _ => false

/-- Two cells adjacent on the grid: equal in one coordinate and differing by
exactly one unit in the other. -/
def Adjacent (a b : Cell) : Prop :=
  (a.row = b.row ∧ (a.col - b.col = 1 ∨ b.col - a.col = 1)) ∨
  (a.col = b.col ∧ (a.row - b.row = 1 ∨ b.row - a.row = 1))

instance (a b : Cell) : Decidable (Adjacent a b) := by
  unfold Adjacent; infer_instance

/-- The key code stored in `direction` plus a well-formed, connected,
nonempty snake: the invariant `game_loop` maintains across ticks. -/
def goodState (s : GameState) : Prop :=
  s.direction ∈ arrowKeys ∧ s.snake ≠ [] ∧ List.Chain' Adjacent s.snake

/-- States reachable within one game session on a `height × width` terminal:
the fresh state of `game_loop` (any initial food cell), closed under
completed ticks (any key, any regenerated food cell). -/
inductive Reachable (height width : Int) : GameState → Prop where
  | init : ∀ food0, Reachable height width (initState height width food0)
  | step : ∀ s key newFood s', Reachable height width s →
      game_tick (mkBox height width) s key newFood = .cont s' →
      Reachable height width s'

/-- The effective direction used by the move in a tick with the given key:
arrow keys pass through the reversal guard, everything else leaves the
direction alone. -/
def effDirection (st : GameState) (key : Int) : Int :=
  if key ∈ arrowKeys then updateDirection st.direction key else st.direction

theorem updateDirection_mem {direction key : Int} (hk : key ∈ arrowKeys)
    (hd : direction ∈ arrowKeys) : updateDirection direction key ∈ arrowKeys := by
  unfold updateDirection
  split_ifs <;> first | exact hk | exact hd

theorem adjacent_newHead {d : Int} (hd : d ∈ arrowKeys) (c : Cell) :
    Adjacent (newHead c d) c := by
  simp only [arrowKeys, KEY_UP, KEY_DOWN, KEY_LEFT, KEY_RIGHT, List.mem_cons,
    List.not_mem_nil, or_false] at hd
  rcases hd with rfl | rfl | rfl | rfl <;>
    simp [newHead, Adjacent, KEY_UP, KEY_DOWN, KEY_LEFT, KEY_RIGHT]

theorem newHead_ne_self {d : Int} (hd : d ∈ arrowKeys) (c : Cell) :
    newHead c d ≠ c := by
  obtain ⟨r, cl⟩ := c
  simp only [arrowKeys, KEY_UP, KEY_DOWN, KEY_LEFT, KEY_RIGHT, List.mem_cons,
    List.not_mem_nil, or_false] at hd
  rcases hd with rfl | rfl | rfl | rfl <;>
    simp [newHead, KEY_UP, KEY_DOWN, KEY_LEFT, KEY_RIGHT, Cell.mk.injEq]

theorem chain_adj_dropLast (l : List Cell) (h : List.Chain' Adjacent l) :
    List.Chain' Adjacent l.dropLast := by
  induction l with
  | nil => simp
  | cons a t ih =>
    cases t with
    | nil => simp
    | cons b t' =>
      rw [List.dropLast_cons₂]
      rcases List.chain'_cons.mp h with ⟨hab, ht⟩
      have ih' := ih ht
      cases t' with
      | nil => simp
      | cons c t'' =>
        rw [List.dropLast_cons₂] at ih' ⊢
        exact List.chain'_cons.mpr ⟨hab, ih'⟩

theorem advance_cont_cases (box : Box) (st : GameState) (newFood : Cell) (s' : GameState)
    (h : advance_phase box st newFood = .cont s') :
    wallCollision box (newHead (st.snake.headD ⟨0, 0⟩) st.direction) = false ∧
    newHead (st.snake.headD ⟨0, 0⟩) st.direction ∉ st.snake ∧
    ((newHead (st.snake.headD ⟨0, 0⟩) st.direction = st.food ∧
        s' = { st with snake := newHead (st.snake.headD ⟨0, 0⟩) st.direction :: st.snake,
                       food := newFood, score := st.score + 1,
                       timeout := new_timeout (st.score + 1) }) ∨
     (newHead (st.snake.headD ⟨0, 0⟩) st.direction ≠ st.food ∧
        s' = { st with
                 snake := (newHead (st.snake.headD ⟨0, 0⟩) st.direction :: st.snake).dropLast })) := by
  simp only [advance_phase] at h
  split at h
  · simp at h
  next hw =>
    split at h
    · simp at h
    next hmem =>
      split at h
      next hfood =>
        injection h with h'
        exact ⟨Bool.not_eq_true _ ▸ by simpa using hw, hmem, Or.inl ⟨hfood, h'.symm⟩⟩
      next hfood =>
        injection h with h'
        exact ⟨Bool.not_eq_true _ ▸ by simpa using hw, hmem, Or.inr ⟨hfood, h'.symm⟩⟩

theorem game_tick_cont_advance (box : Box) (st : GameState) (key : Int) (newFood : Cell)
    (s' : GameState) (h : game_tick box st key newFood = .cont s') :
    advance_phase box { st with direction := effDirection st key } newFood = .cont s' := by
  unfold game_tick at h
  unfold effDirection
  split at h
  next hk => rw [if_pos hk]; exact h
  next hk =>
    rw [if_neg hk]
    split at h
    · simp at h
    · exact h

/-- A concrete eating tick: length-1 snake at (5,5) moving right, food at
(5,6); used to instantiate quantified theorems at concrete inputs. -/
def stW : GameState := ⟨[⟨5, 5⟩], KEY_RIGHT, ⟨5, 6⟩, 0, 100⟩

/-- The state one eating tick after `stW` with regenerated food at (2,2). -/
def stW' : GameState := ⟨[⟨5, 6⟩, ⟨5, 5⟩], KEY_RIGHT, ⟨2, 2⟩, 1, 98⟩

/-- A concrete state one cell away from the left border, moving left. -/
def stWall : GameState := ⟨[⟨2, 2⟩], KEY_LEFT, ⟨9, 9⟩, 0, 100⟩

/-- C1 counterexample: a four-segment snake looping head (2,2) → tail (3,2),
moving down, no food in the way. The new head lands exactly on the cell the
tail would vacate this tick, yet the tick returns `gameOver` — the
self-collision check at line 179 runs before `snake.pop()` at line 193, so
the claim's "the game continues" is false on the code. -/
theorem C1_counterexample :
    (⟨[⟨2, 2⟩, ⟨2, 3⟩, ⟨3, 3⟩, ⟨3, 2⟩], KEY_DOWN, ⟨10, 10⟩, 0, 100⟩ :
        GameState).snake.getLast? = some ⟨3, 2⟩ ∧
    newHead ⟨2, 2⟩ KEY_DOWN = ⟨3, 2⟩ ∧
    newHead ⟨2, 2⟩ KEY_DOWN ≠ (⟨10, 10⟩ : Cell) ∧
    game_tick (mkBox 20 40)
        ⟨[⟨2, 2⟩, ⟨2, 3⟩, ⟨3, 3⟩, ⟨3, 2⟩], KEY_DOWN, ⟨10, 10⟩, 0, 100⟩ NO_INPUT ⟨5, 5⟩ =
      .gameOver 0 ∧
    isCont (game_tick (mkBox 20 40)
        ⟨[⟨2, 2⟩, ⟨2, 3⟩, ⟨3, 3⟩, ⟨3, 2⟩], KEY_DOWN, ⟨10, 10⟩, 0, 100⟩ NO_INPUT ⟨5, 5⟩) =
      false := by
  decide

/-- C1 (amended): the self-collision check runs on the post-insert,
PRE-pop snake — `snake[0] in snake[1:]` at line 179 happens before
`snake.pop()` at line 193 — so whenever the new head lands on any current
body cell, including the tail cell about to be vacated on this very tick,
the tick ends the game with the current score. -/
theorem C1_pre_pop_self_check (box : Box) (st : GameState) (newFood : Cell)
    (hw : wallCollision box (newHead (st.snake.headD ⟨0, 0⟩) st.direction) = false)
    (hmem : newHead (st.snake.headD ⟨0, 0⟩) st.direction ∈ st.snake) :
    game_tick box st NO_INPUT newFood = .gameOver st.score := by
  have he : game_tick box st NO_INPUT newFood = advance_phase box st newFood := by
    unfold game_tick
    rw [if_neg (by decide), if_neg (by decide)]
  rw [he]
  simp only [advance_phase]
  rw [if_neg (by rw [hw]; decide), if_pos hmem]

/-- C1 witness: the amended theorem applied at a concrete loop-shaped snake
whose head moves onto its own tail cell. -/
theorem C1_witness :
    game_tick (mkBox 20 40)
        ⟨[⟨6, 6⟩, ⟨6, 7⟩, ⟨7, 7⟩, ⟨7, 6⟩], KEY_DOWN, ⟨12, 12⟩, 0, 100⟩ NO_INPUT ⟨4, 4⟩ =
      .gameOver 0 :=
  C1_pre_pop_self_check (mkBox 20 40)
    ⟨[⟨6, 6⟩, ⟨6, 7⟩, ⟨7, 7⟩, ⟨7, 6⟩], KEY_DOWN, ⟨12, 12⟩, 0, 100⟩ ⟨4, 4⟩
    (by decide) (by decide)

/-- C2 counterexample: with uppercase Q (`ord('Q') = 81`) the tick does NOT
quit — line 154 only tests `ord('q')` — the snake advances and the loop
continues, refuting "either q or Q ... terminates immediately". -/
theorem C2_counterexample :
    game_tick (mkBox 20 40) ⟨[⟨5, 5⟩], KEY_RIGHT, ⟨10, 10⟩, 0, 100⟩ ORD_Q ⟨2, 2⟩ =
      .cont ⟨[⟨5, 6⟩], KEY_RIGHT, ⟨10, 10⟩, 0, 100⟩ ∧
    isQuit (game_tick (mkBox 20 40) ⟨[⟨5, 5⟩], KEY_RIGHT, ⟨10, 10⟩, 0, 100⟩ ORD_Q ⟨2, 2⟩) =
      false := by
  decide

/-- C2 (amended): only lowercase q quits. For every game state, a tick whose
polled key is `ord('q')` returns the current score immediately, leaving the
state untouched; a tick whose polled key is `ord('Q')` is handled like any
unrecognized key and proceeds to the move phase on the unchanged state. -/
theorem C2_quit_lowercase_only :
    (∀ (box : Box) (st : GameState) (newFood : Cell),
        game_tick box st ORD_q newFood = .quit st.score) ∧
    (∀ (box : Box) (st : GameState) (newFood : Cell),
        game_tick box st ORD_Q newFood = advance_phase box st newFood) := by
  constructor <;> intro box st newFood <;> unfold game_tick
  · rw [if_neg (by decide), if_pos rfl]
  · rw [if_neg (by decide), if_neg (by decide)]

/-- C3: the wall check of lines 171-176 — the move phase ends the game with
the current score when the new head is at or beyond a border line; when it is
not (and no self-collision fires), the tick continues. The second conjunct
characterizes the wall test exactly as the claim's inequalities, and the
third records that a no-input tick is exactly the move phase. -/
theorem C3_wall_collision :
    (∀ (box : Box) (st : GameState) (newFood : Cell),
        (wallCollision box (newHead (st.snake.headD ⟨0, 0⟩) st.direction) = true →
          advance_phase box st newFood = .gameOver st.score) ∧
        (wallCollision box (newHead (st.snake.headD ⟨0, 0⟩) st.direction) = false →
          newHead (st.snake.headD ⟨0, 0⟩) st.direction ∉ st.snake →
          isCont (advance_phase box st newFood) = true)) ∧
    (∀ (box : Box) (c : Cell),
        wallCollision box c = true ↔
          (c.row ≤ box.topLeft.row ∨ box.botRight.row ≤ c.row ∨
           c.col ≤ box.topLeft.col ∨ box.botRight.col ≤ c.col)) ∧
    (∀ (box : Box) (st : GameState) (newFood : Cell),
        game_tick box st NO_INPUT newFood = advance_phase box st newFood) := by
  refine ⟨fun box st newFood => ⟨fun hw => ?_, fun hw hmem => ?_⟩,
    fun box c => ?_, fun box st newFood => ?_⟩
  · simp only [advance_phase]
    rw [if_pos hw]
  · simp only [advance_phase]
    rw [if_neg (by rw [hw]; decide), if_neg hmem]
    split <;> rfl
  · simp [wallCollision, ge_iff_le, or_assoc]
  · unfold game_tick
    rw [if_neg (by decide), if_neg (by decide)]

/-- C3 witness: at the spec's own scenario a head moving onto column 0 hits
the wall and the game ends with score 0; a head moving into free space
continues; and the wall predicate fires at an explicit border cell. -/
theorem C3_witness :
    advance_phase (mkBox 20 40) stWall ⟨2, 2⟩ = .gameOver 0 ∧
    isCont (advance_phase (mkBox 20 40) stW ⟨2, 2⟩) = true ∧
    wallCollision (mkBox 20 40) ⟨2, 1⟩ = true :=
  ⟨(C3_wall_collision.1 (mkBox 20 40) stWall ⟨2, 2⟩).1 (by decide),
   (C3_wall_collision.1 (mkBox 20 40) stW ⟨2, 2⟩).2 (by decide) (by decide),
   (C3_wall_collision.2.1 (mkBox 20 40) ⟨2, 1⟩).mpr (by decide)⟩

/-- The 180-degree opposite of an arrow-key code. -/
def opposite (d : Int) : Int :=
  if d = KEY_UP then KEY_DOWN
  else if d = KEY_DOWN then KEY_UP
  else if d = KEY_LEFT then KEY_RIGHT
  else if d = KEY_RIGHT then KEY_LEFT
  else d

/-- C4: for every current and requested arrow direction, the guard of lines
142-151 sets the direction to the requested key unless that key is the exact
opposite of the current direction, in which case the direction is silently
retained; in particular Right then Left stays Right. -/
theorem C4_no_reversal :
    (∀ cur req : Int, cur ∈ arrowKeys → req ∈ arrowKeys →
        updateDirection cur req = if req = opposite cur then cur else req) ∧
    updateDirection KEY_RIGHT KEY_LEFT = KEY_RIGHT := by
  constructor
  · intro cur req hc hr
    simp only [arrowKeys, KEY_UP, KEY_DOWN, KEY_LEFT, KEY_RIGHT, List.mem_cons,
      List.not_mem_nil, or_false] at hc hr
    rcases hc with rfl | rfl | rfl | rfl <;> rcases hr with rfl | rfl | rfl | rfl <;> decide
  · decide

/-- C4 witness: moving Right and commanding Left keeps the direction Right. -/
theorem C4_witness :
    updateDirection KEY_RIGHT KEY_LEFT =
      if KEY_LEFT = opposite KEY_RIGHT then KEY_RIGHT else KEY_LEFT :=
  C4_no_reversal.1 KEY_RIGHT KEY_LEFT (by decide) (by decide)

/-- C5: whenever the sampled cells are in `random.randint`'s range (strictly
inside the border, as at lines 60-63) and `create_food` returns a cell, that
cell is not on the snake, lies strictly inside the inner bounds, and is never
at or beyond a border line; `create_food` is a pure function of the snake and
the sample stream, so it touches neither the snake nor the score. -/
theorem C5_create_food_safe (box : Box) (snake : List Cell) (draws : List Cell) (c : Cell)
    (hdraws : ∀ d ∈ draws, inInner box d)
    (h : create_food snake draws = some c) :
    c ∉ snake ∧ inInner box c ∧ wallCollision box c = false := by
  revert hdraws h
  induction draws with
  | nil =>
    intro hdraws h
    simp [create_food] at h
  | cons d ds ih =>
    intro hdraws h
    rw [create_food] at h
    by_cases hd : d ∈ snake
    · rw [if_pos hd] at h
      exact ih (fun x hx => hdraws x (List.mem_cons_of_mem _ hx)) h
    · rw [if_neg hd] at h
      injection h with h'
      subst h'
      have hin : inInner box d := hdraws d (List.mem_cons_self _ _)
      refine ⟨hd, hin, ?_⟩
      obtain ⟨h1, h2, h3, h4⟩ := hin
      simp only [wallCollision, Bool.or_eq_false_iff, decide_eq_false_iff_not, not_le, ge_iff_le]
      omega

/-- C5 witness: the first sample lands on the snake and is rejected, the
second is returned; it avoids the snake and stays inside the border. -/
theorem C5_witness :
    (⟨3, 3⟩ : Cell) ∉ ([⟨2, 2⟩] : List Cell) ∧ inInner (mkBox 20 40) ⟨3, 3⟩ ∧
      wallCollision (mkBox 20 40) ⟨3, 3⟩ = false :=
  C5_create_food_safe (mkBox 20 40) [⟨2, 2⟩] [⟨2, 2⟩, ⟨3, 3⟩] ⟨3, 3⟩ (by decide) (by decide)

/-- C6: on every completed tick (result `cont`), eating the food grows the
snake by exactly one cell and the score by exactly one point, and not eating
leaves both unchanged; the score never decreases across a tick. -/
theorem C6_length_score_per_tick (box : Box) (st : GameState) (key : Int)
    (newFood : Cell) (s' : GameState)
    (h : game_tick box st key newFood = .cont s') :
    (newHead (st.snake.headD ⟨0, 0⟩) (effDirection st key) = st.food →
        s'.snake.length = st.snake.length + 1 ∧ s'.score = st.score + 1) ∧
    (newHead (st.snake.headD ⟨0, 0⟩) (effDirection st key) ≠ st.food →
        s'.snake.length = st.snake.length ∧ s'.score = st.score) ∧
    st.score ≤ s'.score := by
  have hc := advance_cont_cases _ _ _ _ (game_tick_cont_advance _ _ _ _ _ h)
  rcases hc with ⟨-, -, hcase | hcase⟩ <;> obtain ⟨hfood, rfl⟩ := hcase
  · exact ⟨fun _ => ⟨by simp, by simp⟩, fun hne => absurd hfood hne, by simp⟩
  · refine ⟨fun heq => absurd heq hfood, fun _ => ⟨?_, by simp⟩, by simp⟩
    simp [List.length_dropLast]

/-- C6 witness: the theorem at the concrete eating tick from `stW` to
`stW'`. -/
theorem C6_witness :
    (newHead (stW.snake.headD ⟨0, 0⟩) (effDirection stW NO_INPUT) = stW.food →
        stW'.snake.length = stW.snake.length + 1 ∧ stW'.score = stW.score + 1) ∧
    (newHead (stW.snake.headD ⟨0, 0⟩) (effDirection stW NO_INPUT) ≠ stW.food →
        stW'.snake.length = stW.snake.length ∧ stW'.score = stW.score) ∧
    stW.score ≤ stW'.score :=
  C6_length_score_per_tick (mkBox 20 40) stW NO_INPUT ⟨2, 2⟩ stW' (by decide)

/-- C7: the recomputed tick interval is `max(50, 100 - score*2)`; it is
monotone non-increasing in the score, never below the floor 50, equals 50 at
scores 25 and 30, and is exactly the timeout installed by every eating
tick, computed from the already-incremented score. -/
theorem C7_tick_interval :
    (∀ s1 s2 : Int, s1 ≤ s2 → new_timeout s2 ≤ new_timeout s1) ∧
    (∀ s : Int, 50 ≤ new_timeout s) ∧
    new_timeout 25 = 50 ∧ new_timeout 30 = 50 ∧
    (∀ (box : Box) (st : GameState) (key : Int) (newFood : Cell) (s' : GameState),
        game_tick box st key newFood = .cont s' →
        newHead (st.snake.headD ⟨0, 0⟩) (effDirection st key) = st.food →
        s'.timeout = new_timeout s'.score) := by
  refine ⟨fun s1 s2 hle => ?_, fun s => ?_, by decide, by decide,
    fun box st key newFood s' h hfood => ?_⟩
  · unfold new_timeout; omega
  · unfold new_timeout; omega
  · have hc := advance_cont_cases _ _ _ _ (game_tick_cont_advance _ _ _ _ _ h)
    rcases hc with ⟨-, -, ⟨-, rfl⟩ | ⟨hne, -⟩⟩
    · simp
    · exact absurd hfood hne

/-- C7 witness: the interval drops from 100 to 98 between scores 0 and 1,
stays at least 50 at score 7, and the eating tick from `stW` installed
exactly the recomputed interval. -/
theorem C7_witness :
    new_timeout 1 ≤ new_timeout 0 ∧ 50 ≤ new_timeout 7 ∧
      stW'.timeout = new_timeout stW'.score :=
  ⟨C7_tick_interval.1 0 1 (by decide), C7_tick_interval.2.1 7,
   C7_tick_interval.2.2.2.2 (mkBox 20 40) stW NO_INPUT ⟨2, 2⟩ stW' (by decide) (by decide)⟩

/-- C8: the size gate of lines 30-41 — any reported size with height < 10 or
width < 30 produces the too-small message and a retry, a game starts exactly
when the minimum is met, and the polling loop only ever hands `game_loop` a
size meeting the minimum. -/
theorem C8_size_gate :
    (∀ h w : Int, h < 10 ∨ w < 30 → session_check h w = .showTooSmallAndRetry) ∧
    (∀ h w : Int, session_check h w = .startGame ↔ 10 ≤ h ∧ 30 ≤ w) ∧
    (∀ (sizes : List (Int × Int)) (h w : Int),
        session_gate sizes = some (h, w) → 10 ≤ h ∧ 30 ≤ w) := by
  refine ⟨fun h w hp => ?_, fun h w => ?_, fun sizes => ?_⟩
  · unfold session_check
    rw [if_pos hp]
  · unfold session_check
    split
    next hp => simp only [reduceCtorEq, false_iff]; omega
    next hp => simp only [true_iff]; omega
  · induction sizes with
    | nil =>
      intro h w hc
      simp [session_gate] at hc
    | cons p rest ih =>
      obtain ⟨ph, pw⟩ := p
      intro h w hc
      rw [session_gate] at hc
      split at hc
      · exact ih h w hc
      next hp =>
        injection hc with h'
        obtain ⟨rfl, rfl⟩ := Prod.mk.injEq .. ▸ And.intro (congrArg Prod.fst h') (congrArg Prod.snd h')
        omega

/-- C8 witness: the spec scenario — an 8 × 20 terminal is rejected without a
game; a later 12 × 40 report is the one the gate starts a game with. -/
theorem C8_witness :
    session_check 8 20 = .showTooSmallAndRetry ∧ ((10:Int) ≤ 12 ∧ (30:Int) ≤ 40) :=
  ⟨C8_size_gate.1 8 20 (by decide),
   C8_size_gate.2.2 [(8, 20), (12, 40)] 12 40 (by decide)⟩

/-- C9: any polled key that is none of the four arrow codes and not
lowercase q — including the -1 poll timeout and `ord('Q')` — leaves input
handling without effect: the tick equals the move phase on the unchanged
state, equals a no-input tick, and never quits. -/
theorem C9_unrecognized_key (box : Box) (st : GameState) (newFood : Cell) (key : Int)
    (h1 : key ∉ arrowKeys) (h2 : key ≠ ORD_q) :
    game_tick box st key newFood = advance_phase box st newFood ∧
    game_tick box st key newFood = game_tick box st NO_INPUT newFood ∧
    isQuit (game_tick box st key newFood) = false := by
  have he : game_tick box st key newFood = advance_phase box st newFood := by
    unfold game_tick
    rw [if_neg h1, if_neg h2]
  have hn : game_tick box st NO_INPUT newFood = advance_phase box st newFood := by
    unfold game_tick
    rw [if_neg (by decide), if_neg (by decide)]
  refine ⟨he, he.trans hn.symm, ?_⟩
  rw [he]
  simp only [advance_phase]
  split
  · rfl
  · split
    · rfl
    · split <;> rfl

/-- C9 witness: uppercase Q behaves exactly like a tick with no input at all
and does not quit. -/
theorem C9_witness :
    game_tick (mkBox 20 40) stW ORD_Q ⟨2, 2⟩ = advance_phase (mkBox 20 40) stW ⟨2, 2⟩ ∧
    game_tick (mkBox 20 40) stW ORD_Q ⟨2, 2⟩ = game_tick (mkBox 20 40) stW NO_INPUT ⟨2, 2⟩ ∧
    isQuit (game_tick (mkBox 20 40) stW ORD_Q ⟨2, 2⟩) = false :=
  C9_unrecognized_key (mkBox 20 40) stW ⟨2, 2⟩ ORD_Q (by decide) (by decide)

theorem advance_cont_good (box : Box) (st : GameState) (newFood : Cell) (s' : GameState)
    (hg : goodState st) (h : advance_phase box st newFood = .cont s') : goodState s' := by
  obtain ⟨hdir, hne, hch⟩ := hg
  have hc := advance_cont_cases _ _ _ _ h
  obtain ⟨hd0, htl⟩ := List.exists_cons_of_ne_nil hne
  obtain ⟨tl, htl⟩ := htl
  have hch1 : List.Chain' Adjacent
      (newHead (st.snake.headD ⟨0, 0⟩) st.direction :: st.snake) := by
    rw [htl]
    refine List.chain'_cons'.mpr ⟨fun y hy => ?_, htl ▸ hch⟩
    simp only [List.head?_cons, Option.mem_def, Option.some.injEq] at hy
    subst hy
    have := adjacent_newHead hdir (st.snake.headD ⟨0, 0⟩)
    rwa [htl] at this
  rcases hc with ⟨-, -, ⟨-, rfl⟩ | ⟨-, rfl⟩⟩
  · exact ⟨hdir, by simp, hch1⟩
  · refine ⟨hdir, ?_, chain_adj_dropLast _ hch1⟩
    have : st.snake.length ≠ 0 := fun h0 => hne (List.length_eq_zero.mp h0)
    simp only [ne_eq, ← List.length_eq_zero, List.length_dropLast, List.length_cons]
    omega

theorem tick_cont_good (box : Box) (st : GameState) (key : Int) (newFood : Cell)
    (s' : GameState) (hg : goodState st)
    (h : game_tick box st key newFood = .cont s') : goodState s' := by
  have ha := game_tick_cont_advance _ _ _ _ _ h
  refine advance_cont_good _ _ _ _ ?_ ha
  obtain ⟨hdir, hne, hch⟩ := hg
  unfold effDirection
  split
  next hk => exact ⟨updateDirection_mem hk hdir, hne, hch⟩
  · exact ⟨hdir, hne, hch⟩

theorem reachable_good {height width : Int} {s : GameState}
    (hr : Reachable height width s) : goodState s := by
  induction hr with
  | init food0 =>
    refine ⟨?_, by simp [initState], ?_⟩
    · simp [initState, arrowKeys]
    · simp [initState]
  | step s key newFood s' hr htick ih => exact tick_cont_good _ _ _ _ _ ih htick

/-- C10: in every state reachable within one game session, consecutive snake
cells are grid-adjacent (equal in one coordinate and one unit apart in the
other), and the head the next move computes from the current direction never
equals the current head — so the self-collision scan can never match the
segment at index 1, which is the previous head. -/
theorem C10_snake_connected (height width : Int) (s : GameState)
    (hr : Reachable height width s) :
    List.Chain' Adjacent s.snake ∧
    (∀ hd tl, s.snake = hd :: tl → newHead hd s.direction ≠ hd) := by
  obtain ⟨hdir, -, hch⟩ := reachable_good hr
  exact ⟨hch, fun hd tl _ => newHead_ne_self hdir hd⟩

/-- C10 witness: the invariant at the fresh state of a 20 × 40 session. -/
theorem C10_witness :
    List.Chain' Adjacent (initState 20 40 ⟨3, 3⟩).snake ∧
    (∀ hd tl, (initState 20 40 ⟨3, 3⟩).snake = hd :: tl →
        newHead hd (initState 20 40 ⟨3, 3⟩).direction ≠ hd) :=
  C10_snake_connected 20 40 (initState 20 40 ⟨3, 3⟩) (Reachable.init ⟨3, 3⟩)
